import Mathlib

/-!
Verification of `retina/core/layer.py` and `demos/nldr/swiss_roll.py`
(the Retina / Fovea layering library).

The Python classes `Layer2D` and `Layer3D` keep their plotted artists in
attribute collections held in `self.__dict__`, and several operations
(`show`, `hide`, `set_prop`, `bold`, `unbold`) walk those collections
recursively with `Layer2D._method_loop`, applying a method to every
non-iterable leaf.  We embed the attribute values reachable by that
traversal as a tree, artist state (visibility, linewidth, style) as
external stores indexed by artist id, and each layer operation as a pure
state transformer translated from the Python source.
-/

namespace Retina

/-- Python attribute values as seen by the recursive traversal in
`Layer2D._method_loop`.  An `artist` is a matplotlib artist identified by
an id into an external property store (artists carry the `set_visible`,
`getp`/`setp` machinery).  A `pystr` is a Python `str`: it has
`__iter__`, but `Layer2D._is_iterable` explicitly rejects strings.
`prim` stands for any other non-iterable value without the relevant
methods (bools, `None`, numbers, plain objects).  `pylist` is any
non-string iterable (lists of artists, nested lists, dict iteration over
its keys, ...). -/
inductive PyVal where
  | artist (id : Nat) : PyVal
  | pystr (s : String) : PyVal
  | prim : PyVal
  | pylist (xs : List PyVal) : PyVal

/-- Translation of `Layer2D._is_iterable`:
`hasattr(value, "__iter__") and not isinstance(value, str)`.
Strings have `__iter__` but are excluded; `prim` and `artist` values have
no `__iter__`. -/
def is_iterable : PyVal → Bool
  | .pystr _ => false
  | .pylist _ => true
  | .artist _ => false
  | .prim => false

mutual

/-- One step of `Layer2D._method_loop` on a single value `val`:
`if self._is_iterable(val): recurse else: apply the method` (through
`_try_method` or `_attr_try_method`, both of which swallow exceptions).
The leaf action `act` is the try/except-wrapped method application. -/
def method_loop_val {σ : Type} (act : σ → PyVal → σ) (st : σ) : PyVal → σ
  | .pylist xs => method_loop_list act st xs
  | .artist i => act st (.artist i)
  | .pystr s => act st (.pystr s)
  | .prim => act st .prim

/-- The `for val in list(iterable)` loop of `Layer2D._method_loop`,
threading the mutable artist-store state left to right. -/
def method_loop_list {σ : Type} (act : σ → PyVal → σ) (st : σ) : List PyVal → σ
  | [] => st
  | v :: vs => method_loop_list act (method_loop_val act st v) vs

end

mutual

/-- The ids of the artist leaves reachable in a value, in traversal
order.  These are exactly the non-iterable leaves of the tree that carry
artist methods. -/
def leaf_artists : PyVal → List Nat
  | .artist i => [i]
  | .pystr _ => []
  | .prim => []
  | .pylist xs => leaf_artists_list xs

/-- Artist leaves of a list of values, in traversal order. -/
def leaf_artists_list : List PyVal → List Nat
  | [] => []
  | v :: vs => leaf_artists v ++ leaf_artists_list vs

end

/-- A leaf action that, on an artist leaf, updates that artist's entry in
the property store with `f` and leaves every other value alone.  This is
the shape of the try/except leaf calls in `layer.py`: `set_visible`,
`getp`/`setp` of `linewidth`, etc. succeed on artists and raise (and are
swallowed) on anything else. -/
def artist_act {α : Type} (f : α → α) (st : Nat → α) : PyVal → (Nat → α)
  | .artist j => fun k => if k = j then f (st j) else st k
  | _ => st

/-- The class attribute `Layer2D.default_style = 'b-'`. -/
def Layer2D.default_style : String := "b-"

/-- A `Layer2D` instance as seen by the traversal operations.  `visible`,
`name` and `style` are the scalar attributes the operations read or
write; `others` holds the values of the remaining entries of
`self.__dict__` (the artist collections `lines`, `hlines`, `vlines`,
`x_data`, `y_data`, `plots`, `patches`, the `axes` object, the
`default_attrs` dict iterated as its keys, and any custom attributes). -/
structure Layer2D where
  visible : Bool
  name : String
  style : String
  others : List PyVal

/-- The values of `self.__dict__` handed to `_method_loop`: the `visible`
bool and the two strings are leaves without artist methods, the rest is
`others`. -/
def Layer2D.dict_values (L : Layer2D) : List PyVal :=
  .prim :: .pystr L.name :: .pystr L.style :: L.others

/-- Translation of `Layer2D._set_visibility(boolean)`: runs
`_method_loop(True, "set_visible", self.__dict__.values(), boolean)`.
Only artists have a `set_visible` method (on any other leaf
`_attr_try_method`'s hasattr check fails), so the leaf action writes the
boolean into the visibility store at artist leaves. -/
def Layer2D.set_visibility (L : Layer2D) (st : Nat → Bool) (b : Bool) : Nat → Bool :=
  method_loop_list (artist_act fun _ => b) st L.dict_values

/-- Translation of `Layer2D.show`: `self._set_visibility(True)` followed
by `self.visible = True`.  Returns the updated layer and the updated
artist-visibility store.  (Named `show_fn` because `show` is a Lean
keyword.) -/
def Layer2D.show_fn (L : Layer2D) (st : Nat → Bool) : Layer2D × (Nat → Bool) :=
  ({ L with visible := true }, L.set_visibility st true)

/-- Translation of `Layer2D.hide`: `self._set_visibility(False)` followed
by `self.visible = False`. -/
def Layer2D.hide (L : Layer2D) (st : Nat → Bool) : Layer2D × (Nat → Bool) :=
  ({ L with visible := false }, L.set_visibility st false)

/-- Translation of `Layer2D.set_style(style)`: the body is the single
assignment `self.style = style`.  The artist style store (styles of the
already plotted artists, by artist id) is not touched: the method has no
access to it. -/
def Layer2D.set_style (L : Layer2D) (st : Nat → String) (style : String) :
    Layer2D × (Nat → String) :=
  ({ L with style := style }, st)

/-- Python truthiness of the optional `linewidth` float argument:
`None` and `0.0` are falsy, everything else truthy. -/
def truthy (x : Option ℚ) : Bool :=
  match x with
  | none => false
  | some v => decide (v ≠ 0)

/-- Translation of `Layer2D._set_linewidth(artist, linewidth, bold)` on
one artist whose current linewidth is `w`.  When `linewidth` is truthy
the source runs `setp(artist, 'linewidth')` WITHOUT passing the value:
in matplotlib `setp` called with a property name and no value only
reports the valid values for the property and changes nothing, so the
artist keeps `w`.  Otherwise the linewidth is doubled (`bold=True`) or
halved with a floor of 1 (`bold=False`). -/
def set_linewidth_step (w : ℚ) (linewidth : Option ℚ) (bold : Bool) : ℚ :=
  if truthy linewidth then w
  else if bold then 2 * w
  else max (w / 2) 1

/-- Translation of `Layer2D.bold(linewidth)`:
`_method_loop(False, self._set_linewidth, self.__dict__.values(), linewidth)`
with `bold=True` defaulted.  `getp`/`setp` raise on non-artist leaves and
`_try_method` swallows the exception, so only artist leaves are updated. -/
def Layer2D.bold (L : Layer2D) (st : Nat → ℚ) (linewidth : Option ℚ) : Nat → ℚ :=
  method_loop_list (artist_act fun w => set_linewidth_step w linewidth true) st L.dict_values

/-- Translation of `Layer2D.unbold()`:
`_method_loop(False, self._set_linewidth, self.__dict__.values(), bold=False)`
(no `linewidth`, so each artist leaf gets `max(current_lw / 2, 1)`). -/
def Layer2D.unbold (L : Layer2D) (st : Nat → ℚ) : Nat → ℚ :=
  method_loop_list (artist_act fun w => set_linewidth_step w none false) st L.dict_values

/-- Translation of `np.argsort` on a length-3 array `[a, b, c]`
(ascending): the returned index vector lists the three positions in order
of increasing value.  On ties numpy's default quicksort returns one of
the valid sorting permutations; this model picks a fixed one, which is
all `Layer3D.add_plane` relies on. -/
def argsort3 (a b c : ℚ) : Fin 3 → Fin 3 :=
  if a ≤ b then
    if b ≤ c then ![0, 1, 2]
    else if a ≤ c then ![0, 2, 1]
    else ![2, 0, 1]
  else
    if a ≤ c then ![1, 0, 2]
    else if b ≤ c then ![1, 2, 0]
    else ![2, 1, 0]

/-- Dot product of two 3-vectors, as in `point.dot(normal)`. -/
def dot3 (a b : Fin 3 → ℚ) : ℚ := a 0 * b 0 + a 1 * b 1 + a 2 * b 2

/-- One grid point produced by `Layer3D.add_plane(point, normal)` at mesh
coordinates `(lv, rv)` (exact rational arithmetic): following the
source, `indices = np.argsort(normal)`, point and normal are permuted by
`indices`, `d = point.dot(normal)` (of the permuted arrays),
`u = (d - normal[0]*l - normal[1]*r) * 1. / normal[2]`, and the three
coordinate arrays `[l, r, u]` are unsorted back through
`diff_ind = np.argsort(indices)`. -/
def add_plane_point (p n : Fin 3 → ℚ) (lv rv : ℚ) : Fin 3 → ℚ :=
  let idx := argsort3 (n 0) (n 1) (n 2)
  let d := p (idx 0) * n (idx 0) + p (idx 1) * n (idx 1) + p (idx 2) * n (idx 2)
  let u := (d - n (idx 0) * lv - n (idx 1) * rv) / n (idx 2)
  let diff := argsort3 ((idx 0).val : ℚ) ((idx 1).val : ℚ) ((idx 2).val : ℚ)
  fun k => ![lv, rv, u] (diff k)

/-- Translation of `np.arange(a, b)` with unit step over exact
rationals: `a, a+1, ...` of length `⌈b - a⌉` (empty when `b ≤ a`). -/
def arange (a b : ℚ) : List ℚ :=
  (List.range (⌈b - a⌉).toNat).map (fun k => a + (k : ℚ))

/-- The mesh-coordinate pairs of `np.meshgrid(np.arange(l_min, l_max),
np.arange(r_min, r_max))` in `add_plane`: the axis limits are permuted by
`indices` and the first two are used as the `l` and `r` ranges. -/
def add_plane_pairs (n : Fin 3 → ℚ) (xlim ylim zlim : ℚ × ℚ) : List (ℚ × ℚ) :=
  let idx := argsort3 (n 0) (n 1) (n 2)
  let lims : Fin 3 → ℚ × ℚ := ![xlim, ylim, zlim]
  let ll := lims (idx 0)
  let rl := lims (idx 1)
  (arange ll.1 ll.2).flatMap (fun lv => (arange rl.1 rl.2).map (fun rv => (lv, rv)))

/-- The full grid of points of the mesh that `add_plane` appends to
`self.planes` (presented as a list of points rather than three
coordinate arrays). -/
def add_plane_mesh (p n : Fin 3 → ℚ) (xlim ylim zlim : ℚ × ℚ) : List (Fin 3 → ℚ) :=
  (add_plane_pairs n xlim ylim zlim).map (fun lr => add_plane_point p n lr.1 lr.2)

/-- Python values stored in a layer's `__dict__`, at the granularity
the `__init__` and `clear` claims need: bools, strings, the empty lists
of the default attributes, the bound `axes` object, `None`, the
`default_attrs` dict, and opaque further values (numbered) that kwargs
may carry. -/
inductive AVal where
  | abool (b : Bool) : AVal
  | astr (s : String) : AVal
  | alist (xs : List Nat) : AVal
  | aaxes : AVal
  | anone : AVal
  | adict (l : List (String × AVal)) : AVal
  | aobj (id : Nat) : AVal

/-- A Python instance `__dict__` as a partial map from attribute name to
value (`none` = attribute absent). -/
def StrDict : Type := String → Option AVal

/-- Python `setattr(self, k, v)` / `self.__dict__[k] = v`. -/
def setattr (d : StrDict) (k : String) (v : AVal) : StrDict :=
  fun s => if s = k then some v else d s

/-- The `for attr in kwargs: setattr(self, attr, kwargs[attr])` loop of
`__init__`, and likewise the `self.__dict__.update(...)` call of
`clear`, over the key/value pairs in iteration order. -/
def apply_kwargs (d : StrDict) (kw : List (String × AVal)) : StrDict :=
  kw.foldl (fun acc p => setattr acc p.1 p.2) d

/-- The `for attr in self.default_attrs: if not hasattr(self, attr):
setattr(self, attr, self.default_attrs[attr])` loop of `__init__`
(`hasattr` on the instance dict). -/
def apply_defaults (d : StrDict) : List (String × AVal) → StrDict
  | [] => d
  | p :: rest => apply_defaults (if (d p.1).isSome then d else setattr d p.1 p.2) rest

/-- The `self.default_attrs` dict literal of `Layer2D.__init__`, in
source order. -/
def default_attrs2D : List (String × AVal) :=
  [("visible", .abool true), ("style", .astr Layer2D.default_style),
   ("lines", .alist []), ("hlines", .alist []), ("vlines", .alist []),
   ("x_data", .alist []), ("y_data", .alist []),
   ("plots", .alist []), ("patches", .alist [])]

/-- The `self.default_attrs` dict literal of `Layer3D.__init__`: the 2-D
attributes plus `z_data` and `planes`, in source order. -/
def default_attrs3D : List (String × AVal) :=
  [("visible", .abool true), ("style", .astr Layer2D.default_style),
   ("lines", .alist []), ("hlines", .alist []), ("vlines", .alist []),
   ("x_data", .alist []), ("y_data", .alist []), ("z_data", .alist []),
   ("plots", .alist []), ("planes", .alist []), ("patches", .alist [])]

/-- The instance dict right after the three explicit assignments at the
top of `__init__`: `self.default_attrs = {...}`, `self.name = name`,
`self.axes = axes`. -/
def init_d3 (attrs : List (String × AVal)) (name : String) (axes : AVal) : StrDict :=
  setattr (setattr (setattr (fun _ => none) "default_attrs" (.adict attrs))
    "name" (.astr name)) "axes" axes

/-- The value of an attribute when it holds a dict (Python would raise
when iterating anything else where a dict is expected). -/
def as_dict : Option AVal → Option (List (String × AVal))
  | some (.adict l) => some l
  | _ => none

/-- Shared shape of `Layer2D.__init__` and `Layer3D.__init__` (their
bodies are identical up to the `default_attrs` literal): set
`self.default_attrs`, `self.name`, `self.axes`, apply the kwargs, then
fill in the defaults not already set, iterating over the current value
of `self.default_attrs`.  If kwargs rebound `default_attrs` to a
non-dict value the Python loop would raise; this is returned as `none`. -/
def layer_init (attrs : List (String × AVal)) (name : String) (axes : AVal)
    (kw : List (String × AVal)) : Option StrDict :=
  (as_dict (apply_kwargs (init_d3 attrs name axes) kw "default_attrs")).map
    (fun l => apply_defaults (apply_kwargs (init_d3 attrs name axes) kw) l)

/-- Translation of `Layer2D.__init__(name, axes, **kwargs)`. -/
def Layer2D.init (name : String) (axes : AVal) (kw : List (String × AVal)) :
    Option StrDict :=
  layer_init default_attrs2D name axes kw

/-- Translation of `Layer3D.__init__(name, axes, **kwargs)`. -/
def Layer3D.init (name : String) (axes : AVal) (kw : List (String × AVal)) :
    Option StrDict :=
  layer_init default_attrs3D name axes kw

/-- Python exception kinds distinguished by the `clear` claim. -/
inductive PyErr where
  | typeError : PyErr
  | attributeError : PyErr

/-- Translation of `Layer2D.clear()` (inherited by `Layer3D`): the loop
`for key in self.__dict__.keys(): self.__dict__[key] = None` sets every
existing attribute — including `default_attrs`, `name` and `axes` — to
`None`; then `self.__dict__.update(self.default_attrs)` reads the
now-`None` `default_attrs`: `dict.update(None)` raises `TypeError` (a
missing attribute would raise `AttributeError` instead), and since the
exception propagates, the all-`None` dict is the state left behind.
Returns the final `__dict__` and the raised exception, if any. -/
def Layer2D.clear (d : StrDict) : StrDict × Option PyErr :=
  let d1 : StrDict := fun k => (d k).map (fun _ => AVal.anone)
  match d1 "default_attrs" with
  | none => (d1, some .attributeError)
  | some (.adict l) => (apply_kwargs d1 l, none)
  | some _ => (d1, some .typeError)

/-- A matplotlib patch as produced by `Layer2D.bound`.  The source
builds `Circle(center, radius, fill=False)` with
`radius = sqrt((y_max - y_mid)**2 + (x_max - x_mid)**2)`; the circle is
recorded here by its center and the squared radius (the radicand), which
determines the radius. -/
inductive Patch where
  | circle (center : ℚ × ℚ) (radiusSq : ℚ) (fill : Bool) : Patch
  | rect (lower_left : ℚ × ℚ) (width height : ℚ) (fill : Bool) : Patch
deriving DecidableEq

/-- The shape argument of `Layer2D.bound`: the matplotlib patch class
passed in; `other` is any class that is neither `Circle` nor
`Rectangle`. -/
inductive Shape where
  | circle : Shape
  | rectangle : Shape
  | other : Shape
deriving DecidableEq

/-- `np.amin` over exact rationals: raises (returns `none`) on an empty
array. -/
def aminQ : List ℚ → Option ℚ
  | [] => none
  | x :: xs => some (xs.foldl min x)

/-- `np.amax` over exact rationals: raises (returns `none`) on an empty
array. -/
def amaxQ : List ℚ → Option ℚ
  | [] => none
  | x :: xs => some (xs.foldl max x)

/-- The data-bearing attributes of a layer that `bound` reads and
writes. -/
structure DataLayer where
  x_data : List (List ℚ)
  y_data : List (List ℚ)
  patches : List Patch
deriving DecidableEq

/-- The `for x, y in zip(self.x_data, self.y_data)` extrema loop of
`bound`; `np.amin`/`np.amax` of an empty later array raise outside the
try block (`none`). -/
def extrema_fold : List (List ℚ × List ℚ) → ℚ → ℚ → ℚ → ℚ →
    Option (ℚ × ℚ × ℚ × ℚ)
  | [], xmin, xmax, ymin, ymax => some (xmin, xmax, ymin, ymax)
  | (x, y) :: rest, xmin, xmax, ymin, ymax =>
    match aminQ x, amaxQ x, aminQ y, amaxQ y with
    | some xlmin, some xlmax, some ylmin, some ylmax =>
      extrema_fold rest (if xlmin < xmin then xlmin else xmin)
        (if xlmax > xmax then xlmax else xmax)
        (if ylmin < ymin then ylmin else ymin)
        (if ylmax > ymax then ylmax else ymax)
    | _, _, _, _ => none

/-- The two patch-appending `if` statements at the end of `bound`: a
`Circle` gets the midpoint center and the diagonal radius, a `Rectangle`
the lower-left corner with width and height, and any other shape class
matches neither `if` and appends nothing. -/
def patch_for (shape : Shape) (xmin xmax ymin ymax : ℚ) : List Patch :=
  match shape with
  | .circle =>
    [Patch.circle ((xmin + xmax) / 2, (ymin + ymax) / 2)
      ((ymax - (ymin + ymax) / 2) ^ 2 + (xmax - (xmin + xmax) / 2) ^ 2) false]
  | .rectangle =>
    [Patch.rect (xmin, ymin) (xmax - xmin) (ymax - ymin) false]
  | .other => []

/-- Translation of `Layer2D.bound(shape, **kwargs)`: the initial extrema
of `x_data[0]` / `y_data[0]` are computed inside a try block — on
`IndexError` (no data added) or `ValueError` (empty first array) the
method prints a diagnostic and returns with the layer unchanged (flag
`true`).  Afterwards the extrema loop runs unprotected
(`Except.error ()` = uncaught exception), and the patches produced by
the shape dispatch are appended. -/
def DataLayer.bound (L : DataLayer) (shape : Shape) :
    Except Unit (DataLayer × Bool) :=
  match L.x_data.head?, L.y_data.head? with
  | some xs0, some ys0 =>
    match aminQ xs0, amaxQ xs0, aminQ ys0, amaxQ ys0 with
    | some xmin0, some xmax0, some ymin0, some ymax0 =>
      match extrema_fold (L.x_data.zip L.y_data) xmin0 xmax0 ymin0 ymax0 with
      | none => Except.error ()
      | some (xmin, xmax, ymin, ymax) =>
        Except.ok ({ L with patches :=
          L.patches ++ patch_for shape xmin xmax ymin ymax }, false)
    | _, _, _, _ => Except.ok (L, true)
  | _, _ => Except.ok (L, true)

/-- The attribute state of one demo layer, projected onto the two layer
methods the event handlers call (both implemented in
`retina/core/layer.py`): `vals` is `self.__dict__.values()` as the
`set_prop` traversal sees it at event time (plotted artists as leaves of
the attribute collections), and `data` is the `x_data` / `y_data` /
`patches` attributes as `bound` reads and writes them. -/
structure SecLayer where
  vals : List PyVal
  data : DataLayer

/-- The state the demo script's `EventSystem` acts on: the alpha
property of every artist (written by matplotlib's `setp`), the layers by
id, the titles of the figure's axes (`self.fig.get_axes()`), the two
event-handler fields `hover_sec` and `click_sec`, and the record of
`nld.showcase` calls (`showcase` lives in `retina.core.axes`, outside
src/, and is modelled from the spec as showcasing the named layer). -/
structure DemoState where
  alphas : Nat → ℚ
  secs : Nat → SecLayer
  axes_titles : List String
  hover_sec : Option Nat
  click_sec : Option Nat
  showcase_log : List Nat

/-- Translation of `Layer2D.set_prop` applied as `set_prop('alpha', a)`:
`self._method_loop(False, setp, self.__dict__.values(), 'alpha', a)`.
`setp` writes the alpha of every artist leaf; on any other leaf it
raises and `_try_method` swallows the exception. -/
def set_prop_alpha (vals : List PyVal) (st : Nat → ℚ) (a : ℚ) : Nat → ℚ :=
  method_loop_list (artist_act fun _ => a) st vals

/-- `sec.set_prop('alpha', a)` on the demo state: the layer's
`set_prop` traversal updates the global artist alpha store. -/
def sec_alpha_op (st : DemoState) (i : Nat) (a : ℚ) : DemoState :=
  { st with alphas := set_prop_alpha (st.secs i).vals st.alphas a }

/-- `sec.bound()` on the demo state: the source `Layer2D.bound` with its
default `shape=Rectangle` argument, run on the layer's data attributes.
An exception raised by `bound` propagates out of the handler; on a
no-data layer `bound` prints and appends nothing. -/
def sec_bound_op (st : DemoState) (i : Nat) : Except Unit DemoState :=
  match (st.secs i).data.bound Shape.rectangle with
  | Except.error e => Except.error e
  | Except.ok (d2, _) =>
      Except.ok { st with secs := fun k =>
        if k = i then { st.secs i with data := d2 } else st.secs k }

/-- Modelled from the spec: `Layer.unbound()` is called by `mouse_over`
but defined in `retina.core.axes`, which is not under src/; per the
spec it removes the highlight that `bound()` drew, i.e. the bound patch
most recently appended to the layer's `patches`. -/
def unbound_op (st : DemoState) (i : Nat) : DemoState :=
  { st with secs := fun k =>
      if k = i then { st.secs i with data :=
        { (st.secs i).data with patches := (st.secs i).data.patches.dropLast } }
      else st.secs k }

/-- The first conditional of `EventSystem.mouse_over`:
`if sec is not self.hover_sec and self.hover_sec: self.hover_sec.unbound()`
(a layer object is truthy, so the second conjunct means `hover_sec` is
not `None`). -/
def over_unbound_prev (st : DemoState) (sec : Nat) : DemoState :=
  match st.hover_sec with
  | some prev => if prev ≠ sec then unbound_op st prev else st
  | none => st

/-- One iteration of the `for ax in self.fig.get_axes()` loop of
`mouse_over`: resolve the axes title to a layer (`nld.get_layer` —
modelled from the spec as a registry lookup `reg`, since it lives in
`retina.core.axes` outside src/; an unresolvable title raises and the
`except` swallows it) and run the source `set_prop('alpha', 0.2)`
traversal on it unless it is the hovered layer. -/
def over_step (reg : String → Option Nat) (sec : Nat) (acc : DemoState)
    (t : String) : DemoState :=
  match reg t with
  | some j => if j ≠ sec then sec_alpha_op acc j (1/5) else acc
  | none => acc

/-- Translation of `EventSystem.mouse_over(event)`: `evtitle` is the
title of `event.inaxes` (`none` when the event is outside any axes, in
which case the `try` fails and the handler returns).  When the title
resolves (via the spec-modelled `nld.get_layer` registry) to a layer
`sec`: unbound the previously hovered different layer, run the source
`Layer2D.set_prop('alpha', 1)` traversal over `sec`'s attribute values,
run the source `Layer2D.bound()` on `sec`'s data (a `bound` exception
propagates out of the handler), set alpha 0.2 on every other resolvable
titled layer, and record `sec` in `hover_sec`. -/
def mouse_over (reg : String → Option Nat) (st : DemoState)
    (evtitle : Option String) : Except Unit DemoState :=
  match evtitle.bind reg with
  | none => Except.ok st
  | some sec =>
    match sec_bound_op (sec_alpha_op (over_unbound_prev st sec) sec 1) sec with
    | Except.error e => Except.error e
    | Except.ok st2 =>
        Except.ok { st.axes_titles.foldl (over_step reg sec) st2 with
          hover_sec := some sec }

/-- Translation of `EventSystem.mouse_click(event)`: when the clicked
axes title resolves to a layer `sec`, showcase it (`nld.showcase`, in
`retina.core.axes` outside src/, modelled from the spec as a record of
showcased layers) if it differs from the non-`None` last clicked layer,
and record it in `click_sec`. -/
def mouse_click (reg : String → Option Nat) (st : DemoState)
    (evtitle : Option String) : DemoState :=
  match evtitle.bind reg with
  | none => st
  | some sec =>
    let st1 := match st.click_sec with
      | some prev =>
          if prev ≠ sec then { st with showcase_log := st.showcase_log ++ [sec] }
          else st
      | none => st
    { st1 with click_sec := some sec }

/-- A concrete two-layer registry for the C6 witness: the axes titled
"section 0" and "section 1" hold layers 0 and 1. -/
def demo_reg : String → Option Nat := fun t =>
  if t = "section 0" then some 0
  else if t = "section 1" then some 1
  else none

/-- Data attributes of the witness layer 0 before the hover event. -/
def demo_data0 : DataLayer :=
  { x_data := [[0, 1]], y_data := [[0, 2]], patches := [] }

/-- Data attributes of layer 0 after `bound()` appended the rectangle
bound patch. -/
def demo_d2 : DataLayer :=
  { x_data := [[0, 1]], y_data := [[0, 2]],
    patches := [Patch.rect (0, 0) 1 2 false] }

/-- Witness layer 0: one plotted artist (id 0) in its collections. -/
def demo_sec0 : SecLayer :=
  { vals := [.pylist [.artist 0], .prim], data := demo_data0 }

/-- Witness layer 1: one plotted artist (id 1) and a bound patch drawn
while it was hovered. -/
def demo_sec1 : SecLayer :=
  { vals := [.pylist [.artist 1], .prim],
    data := { x_data := [[0, 1]], y_data := [[0, 2]],
              patches := [Patch.rect (0, 0) 1 2 false] } }

/-- A concrete demo state for the C6 witness: layer 1 is currently
hovered (bound drawn) and was the last clicked. -/
def demo_st : DemoState :=
  { alphas := fun _ => 1/2
    secs := fun k => if k = 0 then demo_sec0 else demo_sec1
    axes_titles := ["section 0", "section 1"]
    hover_sec := some 1
    click_sec := some 1
    showcase_log := [] }

mutual

/-- The traversal with an artist action leaves the store unchanged at any
id that is not an artist leaf of the value. -/
theorem loop_val_not_mem {α : Type} (f : α → α) :
    ∀ (v : PyVal) (st : Nat → α) (i : Nat), i ∉ leaf_artists v →
      method_loop_val (artist_act f) st v i = st i
  | .artist j, st, i, h => by
      simp [leaf_artists] at h
      simp [method_loop_val, artist_act, h]
  | .pystr s, st, i, _ => by simp [method_loop_val, artist_act]
  | .prim, st, i, _ => by simp [method_loop_val, artist_act]
  | .pylist xs, st, i, h => by
      simp [leaf_artists] at h
      simpa [method_loop_val] using loop_list_not_mem f xs st i h

/-- List version of `loop_val_not_mem`. -/
theorem loop_list_not_mem {α : Type} (f : α → α) :
    ∀ (vs : List PyVal) (st : Nat → α) (i : Nat), i ∉ leaf_artists_list vs →
      method_loop_list (artist_act f) st vs i = st i
  | [], st, i, _ => by simp [method_loop_list]
  | v :: vs, st, i, h => by
      simp [leaf_artists_list, List.mem_append, not_or] at h
      rw [method_loop_list]
      rw [loop_list_not_mem f vs _ i h.2]
      exact loop_val_not_mem f v st i h.1

end

mutual

/-- When the leaf action writes a constant `b`, the traversal sets the
store to `b` at every artist leaf of the value (duplicates are harmless:
every write writes `b`). -/
theorem loop_val_const {α : Type} (b : α) :
    ∀ (v : PyVal) (st : Nat → α) (i : Nat), i ∈ leaf_artists v →
      method_loop_val (artist_act fun _ => b) st v i = b
  | .artist j, st, i, h => by
      simp [leaf_artists] at h
      simp [method_loop_val, artist_act, h]
  | .pystr s, st, i, h => by simp [leaf_artists] at h
  | .prim, st, i, h => by simp [leaf_artists] at h
  | .pylist xs, st, i, h => by
      simp [leaf_artists] at h
      simpa [method_loop_val] using loop_list_const b xs st i h

/-- List version of `loop_val_const`. -/
theorem loop_list_const {α : Type} (b : α) :
    ∀ (vs : List PyVal) (st : Nat → α) (i : Nat), i ∈ leaf_artists_list vs →
      method_loop_list (artist_act fun _ => b) st vs i = b
  | v :: vs, st, i, h => by
      simp [leaf_artists_list, List.mem_append] at h
      rw [method_loop_list]
      by_cases hvs : i ∈ leaf_artists_list vs
      · exact loop_list_const b vs _ i hvs
      · have hv : i ∈ leaf_artists v := h.resolve_right hvs
        rw [loop_list_not_mem _ vs _ i hvs]
        exact loop_val_const b v st i hv

end

mutual

/-- When every artist appears at most once among the leaves, the
traversal applies the leaf update `f` exactly once to each artist leaf. -/
theorem loop_val_nodup {α : Type} (f : α → α) :
    ∀ (v : PyVal) (st : Nat → α) (i : Nat), (leaf_artists v).Nodup →
      i ∈ leaf_artists v →
      method_loop_val (artist_act f) st v i = f (st i)
  | .artist j, st, i, _, h => by
      simp [leaf_artists] at h
      simp [method_loop_val, artist_act, h]
  | .pystr s, st, i, _, h => by simp [leaf_artists] at h
  | .prim, st, i, _, h => by simp [leaf_artists] at h
  | .pylist xs, st, i, hnd, h => by
      simp [leaf_artists] at hnd h
      simpa [method_loop_val] using loop_list_nodup f xs st i hnd h

/-- List version of `loop_val_nodup`. -/
theorem loop_list_nodup {α : Type} (f : α → α) :
    ∀ (vs : List PyVal) (st : Nat → α) (i : Nat), (leaf_artists_list vs).Nodup →
      i ∈ leaf_artists_list vs →
      method_loop_list (artist_act f) st vs i = f (st i)
  | v :: vs, st, i, hnd, h => by
      simp only [leaf_artists_list] at hnd h
      rw [List.nodup_append] at hnd
      rw [List.mem_append] at h
      rw [method_loop_list]
      rcases h with hv | hvs
      · have hnotvs : i ∉ leaf_artists_list vs := fun hc => hnd.2.2 hv hc
        rw [loop_list_not_mem f vs _ i hnotvs]
        exact loop_val_nodup f v st i hnd.1 hv
      · have hnotv : i ∉ leaf_artists v := fun hc => hnd.2.2 hc hvs
        rw [loop_list_nodup f vs _ i hnd.2.1 hvs]
        rw [loop_val_not_mem f v st i hnotv]

end

/-- Membership of an artist leaf of one dict value among the leaves of
the whole value list. -/
theorem mem_leaf_artists_list {vs : List PyVal} {v : PyVal} {i : Nat}
    (hv : v ∈ vs) (hi : i ∈ leaf_artists v) : i ∈ leaf_artists_list vs := by
  induction vs with
  | nil => cases hv
  | cons w ws ih =>
      rw [leaf_artists_list, List.mem_append]
      rcases List.mem_cons.mp hv with rfl | hw
      · exact Or.inl hi
      · exact Or.inr (ih hw)

/-- C1: `show()` / `hide()` traverse the layer's attribute values
recursively and call `set_visible(True)` / `set_visible(False)` on every
non-iterable leaf (strings being leaves, via `_is_iterable`) reachable at
any nesting depth inside the iterables among `self.__dict__.values()`,
for every leaf that has a `set_visible` method; afterwards `self.visible`
is `True` for `show()` and `False` for `hide()`. -/
theorem show_hide_set_visibility_of_leaves (L : Layer2D) (stv sth : Nat → Bool)
    (v : PyVal) (i : Nat)
    (hv : v ∈ L.dict_values) (hiter : is_iterable v = true)
    (hi : i ∈ leaf_artists v) :
    (L.show_fn stv).2 i = true ∧ (L.show_fn stv).1.visible = true ∧
    (L.hide sth).2 i = false ∧ (L.hide sth).1.visible = false := by
  have hmem := mem_leaf_artists_list hv hi
  refine ⟨?_, rfl, ?_, rfl⟩
  · exact loop_list_const true L.dict_values stv i hmem
  · exact loop_list_const false L.dict_values sth i hmem

/-- Witness for C1: a layer whose `lines` list holds one artist (id 3);
`show()` makes it visible, `hide()` hides it. -/
theorem show_hide_set_visibility_of_leaves_witness :
    ((Layer2D.mk true "layer1" "b-" [.pylist [.artist 3, .pystr "x"], .prim]).show_fn
        (fun _ => false)).2 3 = true ∧
    ((Layer2D.mk true "layer1" "b-" [.pylist [.artist 3, .pystr "x"], .prim]).show_fn
        (fun _ => false)).1.visible = true ∧
    ((Layer2D.mk true "layer1" "b-" [.pylist [.artist 3, .pystr "x"], .prim]).hide
        (fun _ => true)).2 3 = false ∧
    ((Layer2D.mk true "layer1" "b-" [.pylist [.artist 3, .pystr "x"], .prim]).hide
        (fun _ => true)).1.visible = false :=
  show_hide_set_visibility_of_leaves _ _ _ (.pylist [.artist 3, .pystr "x"]) 3
    (by simp [Layer2D.dict_values]) rfl (by simp [leaf_artists, leaf_artists_list])

/-- C3 evidence (code bug): `Layer2D.set_style` is the single assignment
`self.style = style`; evaluated on a layer holding one plotted artist
(id 0, current style "b-"), the layer's `style` field becomes "r-" but
the artist style store is untouched, although the method's own docstring
says "Apply a style to all Matplotlib artists in the layer". -/
theorem set_style_leaves_artists_unchanged :
    ((Layer2D.mk true "curve" "b-" [.pylist [.artist 0]]).set_style
        (fun _ => "b-") "r-").1.style = "r-" ∧
    ((Layer2D.mk true "curve" "b-" [.pylist [.artist 0]]).set_style
        (fun _ => "b-") "r-").2 0 = "b-" ∧
    ((Layer2D.mk true "curve" "b-" [.pylist [.artist 0]]).set_style
        (fun _ => "b-") "r-").2 = (fun _ => "b-") :=
  ⟨rfl, rfl, rfl⟩

/-- C4 evidence (code bug): on a layer whose `lines` hold one artist
(id 7) with linewidth 1, `bold(5)` leaves the linewidth at 1 — the
source calls `setp(artist, 'linewidth')` without passing the value, and
matplotlib's `setp` with a bare property name only reports valid values —
although `bold`'s docstring says the linewidth is set to the given value.
With no argument, `bold()` doubles the linewidth to 2 as documented. -/
theorem bold_with_linewidth_is_noop :
    ((Layer2D.mk true "curve" "b-" [.pylist [.artist 7]]).bold (fun _ => 1) (some 5)) 7
      = 1 ∧
    ((Layer2D.mk true "curve" "b-" [.pylist [.artist 7]]).bold (fun _ => 1) none) 7
      = 2 := by
  constructor
  · simp [Layer2D.bold, Layer2D.dict_values, method_loop_list, method_loop_val,
      artist_act, set_linewidth_step, truthy]
  · simp [Layer2D.bold, Layer2D.dict_values, method_loop_list, method_loop_val,
      artist_act, set_linewidth_step, truthy]

/-- C8: on a layer whose artist leaves are pairwise distinct, `bold()`
followed by `unbold()` leaves an artist whose linewidth was `w` with
linewidth `max w 1`: the round trip restores `w` exactly when `w ≥ 1`
and raises it to 1 when `w < 1`. -/
theorem bold_unbold_round_trip (L : Layer2D) (st : Nat → ℚ) (i : Nat)
    (hnd : (leaf_artists_list L.dict_values).Nodup)
    (hi : i ∈ leaf_artists_list L.dict_values) :
    L.unbold (L.bold st none) i = max (st i) 1 ∧
    (1 ≤ st i → L.unbold (L.bold st none) i = st i) ∧
    (st i < 1 → L.unbold (L.bold st none) i = 1) := by
  have hb : L.bold st none i = 2 * st i := by
    have := loop_list_nodup (fun w => set_linewidth_step w none true)
      L.dict_values st i hnd hi
    simpa [Layer2D.bold, set_linewidth_step, truthy] using this
  have hu : L.unbold (L.bold st none) i = max (L.bold st none i / 2) 1 := by
    have := loop_list_nodup (fun w => set_linewidth_step w none false)
      L.dict_values (L.bold st none) i hnd hi
    simpa [Layer2D.unbold, Layer2D.bold, set_linewidth_step, truthy] using this
  have hmain : L.unbold (L.bold st none) i = max (st i) 1 := by
    rw [hu, hb]
    ring_nf
  refine ⟨hmain, ?_, ?_⟩
  · intro h1
    rw [hmain]
    exact max_eq_left h1
  · intro h1
    rw [hmain]
    exact max_eq_right (le_of_lt h1)

/-- Witness for C8: an artist with linewidth 1/2 ends the round trip at
linewidth 1 = max (1/2) 1. -/
theorem bold_unbold_round_trip_witness :
    (Layer2D.mk true "n" "b-" [.pylist [.artist 2]]).unbold
        ((Layer2D.mk true "n" "b-" [.pylist [.artist 2]]).bold (fun _ => 1/2) none) 2
      = max ((1:ℚ)/2) 1 ∧
    (1 ≤ ((1:ℚ)/2) →
      (Layer2D.mk true "n" "b-" [.pylist [.artist 2]]).unbold
        ((Layer2D.mk true "n" "b-" [.pylist [.artist 2]]).bold (fun _ => 1/2) none) 2
      = 1/2) ∧
    (((1:ℚ)/2) < 1 →
      (Layer2D.mk true "n" "b-" [.pylist [.artist 2]]).unbold
        ((Layer2D.mk true "n" "b-" [.pylist [.artist 2]]).bold (fun _ => 1/2) none) 2
      = 1) :=
  bold_unbold_round_trip _ _ 2
    (by simp [Layer2D.dict_values, leaf_artists_list, leaf_artists])
    (by simp [Layer2D.dict_values, leaf_artists_list, leaf_artists])

/-- Core of C2: whenever the largest normal component is nonzero, each
grid point of `add_plane` satisfies the cutting-plane equation. -/
theorem add_plane_point_on_plane (p n : Fin 3 → ℚ) (lv rv : ℚ)
    (hmax : max (max (n 0) (n 1)) (n 2) ≠ 0) :
    dot3 n (add_plane_point p n lv rv) = dot3 p n := by
  rcases le_or_lt (n 0) (n 1) with h01 | h01
  · rcases le_or_lt (n 1) (n 2) with h12 | h12
    · have hd : n 2 ≠ 0 := by
        have hm : max (max (n 0) (n 1)) (n 2) = n 2 := by
          rw [max_eq_right h01, max_eq_right h12]
        rwa [hm] at hmax
      have hidx : argsort3 (n 0) (n 1) (n 2) = ![0, 1, 2] := by
        simp [argsort3, h01, h12]
      simp only [add_plane_point, dot3, hidx]
      norm_num [argsort3]
      try field_simp
      try ring
    · rcases le_or_lt (n 0) (n 2) with h02 | h02
      · have hd : n 1 ≠ 0 := by
          have hm : max (max (n 0) (n 1)) (n 2) = n 1 := by
            rw [max_eq_right h01, max_eq_left (le_of_lt h12)]
          rwa [hm] at hmax
        have hidx : argsort3 (n 0) (n 1) (n 2) = ![0, 2, 1] := by
          simp [argsort3, h01, h02, not_le.mpr h12]
        simp only [add_plane_point, dot3, hidx]
        norm_num [argsort3]
        try field_simp
        try ring
      · have hd : n 1 ≠ 0 := by
          have hm : max (max (n 0) (n 1)) (n 2) = n 1 := by
            rw [max_eq_right h01, max_eq_left (le_of_lt h12)]
          rwa [hm] at hmax
        have hidx : argsort3 (n 0) (n 1) (n 2) = ![2, 0, 1] := by
          simp [argsort3, h01, not_le.mpr h12, not_le.mpr h02]
        simp only [add_plane_point, dot3, hidx]
        norm_num [argsort3]
        try field_simp
        try ring
  · rcases le_or_lt (n 0) (n 2) with h02 | h02
    · have hd : n 2 ≠ 0 := by
        have hm : max (max (n 0) (n 1)) (n 2) = n 2 := by
          rw [max_eq_left (le_of_lt h01), max_eq_right h02]
        rwa [hm] at hmax
      have hidx : argsort3 (n 0) (n 1) (n 2) = ![1, 0, 2] := by
        simp [argsort3, not_le.mpr h01, h02]
      simp only [add_plane_point, dot3, hidx]
      norm_num [argsort3]
      try field_simp
      try ring
    · rcases le_or_lt (n 1) (n 2) with h12 | h12
      · have hd : n 0 ≠ 0 := by
          have hm : max (max (n 0) (n 1)) (n 2) = n 0 := by
            rw [max_eq_left (le_of_lt h01), max_eq_left (le_of_lt h02)]
          rwa [hm] at hmax
        have hidx : argsort3 (n 0) (n 1) (n 2) = ![1, 2, 0] := by
          simp [argsort3, not_le.mpr h01, not_le.mpr h02, h12]
        simp only [add_plane_point, dot3, hidx]
        norm_num [argsort3]
        try field_simp
        try ring
      · have hd : n 0 ≠ 0 := by
          have hm : max (max (n 0) (n 1)) (n 2) = n 0 := by
            rw [max_eq_left (le_of_lt h01), max_eq_left (le_of_lt h02)]
          rwa [hm] at hmax
        have hidx : argsort3 (n 0) (n 1) (n 2) = ![2, 1, 0] := by
          simp [argsort3, not_le.mpr h01, not_le.mpr h02, not_le.mpr h12]
        simp only [add_plane_point, dot3, hidx]
        norm_num [argsort3]
        try field_simp
        try ring

/-- C2: for every point `p` and normal `n` whose largest component is
nonzero, every grid point `(x, y, z)` of the mesh `add_plane(p, n)`
appends to `self.planes` satisfies `n0*x + n1*y + n2*z = d` with
`d = p · n`; in particular the argsort / argsort-of-argsort unsort
returns the coordinates to `(x, y, z)` order (exact arithmetic). -/
theorem add_plane_mesh_on_plane (p n : Fin 3 → ℚ) (xlim ylim zlim : ℚ × ℚ)
    (hmax : max (max (n 0) (n 1)) (n 2) ≠ 0) :
    ∀ q ∈ add_plane_mesh p n xlim ylim zlim, dot3 n q = dot3 p n := by
  intro q hq
  rw [add_plane_mesh, List.mem_map] at hq
  obtain ⟨lr, _, rfl⟩ := hq
  exact add_plane_point_on_plane p n lr.1 lr.2 hmax

/-- Witness for C2: plane through (1, 2, 3) with normal (1, 2, 2) over
the box [0,2] × [0,2] × [0,2]; the first mesh point satisfies the plane
equation. -/
theorem add_plane_mesh_on_plane_witness :
    max (max ((1:ℚ)) 2) 2 ≠ 0 ∧
    ∀ q ∈ add_plane_mesh ![1, 2, 3] ![1, 2, 2] (0, 2) (0, 2) (0, 2),
      dot3 ![1, 2, 2] q = dot3 ![1, 2, 3] ![1, 2, 2] := by
  constructor
  · norm_num
  · have h := add_plane_mesh_on_plane ![1, 2, 3] ![1, 2, 2] (0, 2) (0, 2) (0, 2)
      (by norm_num)
    simpa using h

/-- `apply_kwargs` leaves alone every key it does not bind. -/
theorem apply_kwargs_not_mem (kw : List (String × AVal)) (d : StrDict) (k : String)
    (h : k ∉ kw.map Prod.fst) : apply_kwargs d kw k = d k := by
  induction kw generalizing d with
  | nil => rfl
  | cons p rest ih =>
      simp only [List.map_cons, List.mem_cons, not_or] at h
      rw [apply_kwargs, List.foldl_cons]
      rw [show List.foldl (fun acc q => setattr acc q.1 q.2) (setattr d p.1 p.2) rest
            = apply_kwargs (setattr d p.1 p.2) rest from rfl]
      rw [ih _ h.2]
      simp [setattr, h.1]

/-- With distinct keys, every binding in the kwargs survives to the end
of the `apply_kwargs` loop. -/
theorem apply_kwargs_mem (kw : List (String × AVal)) (d : StrDict) (k : String)
    (v : AVal) (hnd : (kw.map Prod.fst).Nodup) (h : (k, v) ∈ kw) :
    apply_kwargs d kw k = some v := by
  induction kw generalizing d with
  | nil => cases h
  | cons p rest ih =>
      simp only [List.map_cons, List.nodup_cons] at hnd
      rcases List.mem_cons.mp h with rfl | hrest
      · have hk : k ∉ rest.map Prod.fst := by
          simpa using hnd.1
        rw [apply_kwargs, List.foldl_cons]
        rw [show List.foldl (fun acc q => setattr acc q.1 q.2) (setattr d k v) rest
              = apply_kwargs (setattr d k v) rest from rfl]
        rw [apply_kwargs_not_mem rest _ k hk]
        simp [setattr]
      · rw [apply_kwargs, List.foldl_cons]
        exact ih _ hnd.2 hrest

/-- `apply_defaults` never overwrites an attribute that is already
present, and leaves its value unchanged. -/
theorem apply_defaults_isSome (l : List (String × AVal)) (d : StrDict) (k : String)
    (h : (d k).isSome) : apply_defaults d l k = d k := by
  induction l generalizing d with
  | nil => rfl
  | cons p rest ih =>
      rw [apply_defaults]
      by_cases hp : (d p.1).isSome
      · rw [if_pos hp]
        exact ih d h
      · rw [if_neg hp]
        have hne : k ≠ p.1 := by
          intro he
          rw [he] at h
          exact hp h
        have : setattr d p.1 p.2 k = d k := by simp [setattr, hne]
        rw [ih _ (by rw [this]; exact h), this]

/-- A default with a key absent from the dict (and listed once) is
installed by the `apply_defaults` loop. -/
theorem apply_defaults_mem (l : List (String × AVal)) (d : StrDict) (k : String)
    (v : AVal) (hnd : (l.map Prod.fst).Nodup) (h : (k, v) ∈ l)
    (habs : d k = none) : apply_defaults d l k = some v := by
  induction l generalizing d with
  | nil => cases h
  | cons p rest ih =>
      simp only [List.map_cons, List.nodup_cons] at hnd
      rw [apply_defaults]
      rcases List.mem_cons.mp h with rfl | hrest
      · rw [if_neg (by simp [habs])]
        have hset : setattr d k v k = some v := by simp [setattr]
        rw [apply_defaults_isSome rest _ k (by rw [hset]; rfl), hset]
      · have hne : k ≠ p.1 := by
          intro he
          apply hnd.1
          rw [← he]
          exact List.mem_map_of_mem Prod.fst hrest
        by_cases hp : (d p.1).isSome
        · rw [if_pos hp]
          exact ih d hnd.2 hrest habs
        · rw [if_neg hp]
          exact ih _ hnd.2 hrest (by simp [setattr, hne, habs])

/-- What `layer_init` yields: each kwargs binding wins; `name`, `axes`
and each default not shadowed by kwargs get their `__init__` values. -/
theorem layer_init_spec (attrs : List (String × AVal)) (name : String)
    (axes : AVal) (kw : List (String × AVal))
    (hnd : (kw.map Prod.fst).Nodup)
    (hda : "default_attrs" ∉ kw.map Prod.fst)
    (hand : (attrs.map Prod.fst).Nodup)
    (hdan : "default_attrs" ∉ attrs.map Prod.fst) :
    ∃ d, layer_init attrs name axes kw = some d ∧
      (∀ k v, (k, v) ∈ kw → d k = some v) ∧
      ("name" ∉ kw.map Prod.fst → d "name" = some (.astr name)) ∧
      ("axes" ∉ kw.map Prod.fst → d "axes" = some axes) ∧
      (∀ k v, (k, v) ∈ attrs → k ∉ kw.map Prod.fst →
        k ≠ "name" → k ≠ "axes" → d k = some v) := by
  have hd4 : apply_kwargs (init_d3 attrs name axes) kw "default_attrs"
      = some (.adict attrs) := by
    rw [apply_kwargs_not_mem kw _ _ hda]
    simp [init_d3, setattr]
  refine ⟨apply_defaults (apply_kwargs (init_d3 attrs name axes) kw) attrs,
    ?_, ?_, ?_, ?_, ?_⟩
  · rw [layer_init, hd4]
    rfl
  · intro k v hkv
    have hk : apply_kwargs (init_d3 attrs name axes) kw k = some v :=
      apply_kwargs_mem kw _ k v hnd hkv
    rw [apply_defaults_isSome attrs _ k (by rw [hk]; rfl), hk]
  · intro hname
    have hk : apply_kwargs (init_d3 attrs name axes) kw "name"
        = init_d3 attrs name axes "name" :=
      apply_kwargs_not_mem kw _ "name" hname
    have hv : init_d3 attrs name axes "name" = some (.astr name) := by
      simp [init_d3, setattr]
    rw [apply_defaults_isSome attrs _ _ (by rw [hk, hv]; rfl), hk, hv]
  · intro haxes
    have hk : apply_kwargs (init_d3 attrs name axes) kw "axes"
        = init_d3 attrs name axes "axes" :=
      apply_kwargs_not_mem kw _ "axes" haxes
    have hv : init_d3 attrs name axes "axes" = some axes := by
      simp [init_d3, setattr]
    rw [apply_defaults_isSome attrs _ _ (by rw [hk, hv]; rfl), hk, hv]
  · intro k v hkv hk hkn hka
    have hkda : k ≠ "default_attrs" := by
      intro he
      apply hdan
      rw [← he]
      exact List.mem_map_of_mem Prod.fst hkv
    have hkw : apply_kwargs (init_d3 attrs name axes) kw k
        = init_d3 attrs name axes k :=
      apply_kwargs_not_mem kw _ k hk
    have hnone : init_d3 attrs name axes k = none := by
      simp [init_d3, setattr, hka, hkn, hkda]
    exact apply_defaults_mem attrs _ k v hand hkv (by rw [hkw, hnone])

/-- C5: after `Layer2D.__init__(name, axes, **kwargs)` the instance has
`name`, `axes`, and every key of `default_attrs` as attributes —
`visible = True`, `style` the class default style, and the seven
collections as empty lists — except that an attribute supplied in kwargs
keeps its kwargs value (kwargs are applied first, and the defaults loop
skips attributes that already exist); `Layer3D.__init__` additionally
provides `z_data` and `planes` as empty lists. -/
theorem init_sets_attributes (name : String) (axes : AVal)
    (kw : List (String × AVal))
    (hnd : (kw.map Prod.fst).Nodup)
    (hda : "default_attrs" ∉ kw.map Prod.fst) :
    (∃ d, Layer2D.init name axes kw = some d ∧
      (∀ k v, (k, v) ∈ kw → d k = some v) ∧
      ("name" ∉ kw.map Prod.fst → d "name" = some (.astr name)) ∧
      ("axes" ∉ kw.map Prod.fst → d "axes" = some axes) ∧
      (∀ k v, (k, v) ∈ default_attrs2D → k ∉ kw.map Prod.fst → d k = some v)) ∧
    (∃ d, Layer3D.init name axes kw = some d ∧
      (∀ k v, (k, v) ∈ kw → d k = some v) ∧
      ("name" ∉ kw.map Prod.fst → d "name" = some (.astr name)) ∧
      ("axes" ∉ kw.map Prod.fst → d "axes" = some axes) ∧
      (∀ k v, (k, v) ∈ default_attrs3D → k ∉ kw.map Prod.fst → d k = some v)) := by
  constructor
  · obtain ⟨d, hrun, hkw, hname, haxes, hdef⟩ :=
      layer_init_spec default_attrs2D name axes kw hnd hda
        (by decide) (by decide)
    refine ⟨d, hrun, hkw, hname, haxes, ?_⟩
    intro k v hkv hknotkw
    have hne : k ≠ "name" ∧ k ≠ "axes" := by
      fin_cases hkv <;> exact ⟨by decide, by decide⟩
    exact hdef k v hkv hknotkw hne.1 hne.2
  · obtain ⟨d, hrun, hkw, hname, haxes, hdef⟩ :=
      layer_init_spec default_attrs3D name axes kw hnd hda
        (by decide) (by decide)
    refine ⟨d, hrun, hkw, hname, haxes, ?_⟩
    intro k v hkv hknotkw
    have hne : k ≠ "name" ∧ k ≠ "axes" := by
      fin_cases hkv <;> exact ⟨by decide, by decide⟩
    exact hdef k v hkv hknotkw hne.1 hne.2

/-- Witness for C5: initialization with kwargs overriding `style` and
adding a custom attribute. -/
theorem init_sets_attributes_witness :
    (∃ d, Layer2D.init "roll" .aaxes [("style", .astr "r-"), ("zorder", .aobj 0)]
        = some d ∧
      (∀ k v, (k, v) ∈ [("style", AVal.astr "r-"), ("zorder", AVal.aobj 0)] →
        d k = some v) ∧
      ("name" ∉ [("style", AVal.astr "r-"), ("zorder", AVal.aobj 0)].map Prod.fst →
        d "name" = some (.astr "roll")) ∧
      ("axes" ∉ [("style", AVal.astr "r-"), ("zorder", AVal.aobj 0)].map Prod.fst →
        d "axes" = some .aaxes) ∧
      (∀ k v, (k, v) ∈ default_attrs2D →
        k ∉ [("style", AVal.astr "r-"), ("zorder", AVal.aobj 0)].map Prod.fst →
        d k = some v)) ∧
    (∃ d, Layer3D.init "roll" .aaxes [("style", .astr "r-"), ("zorder", .aobj 0)]
        = some d ∧
      (∀ k v, (k, v) ∈ [("style", AVal.astr "r-"), ("zorder", AVal.aobj 0)] →
        d k = some v) ∧
      ("name" ∉ [("style", AVal.astr "r-"), ("zorder", AVal.aobj 0)].map Prod.fst →
        d "name" = some (.astr "roll")) ∧
      ("axes" ∉ [("style", AVal.astr "r-"), ("zorder", AVal.aobj 0)].map Prod.fst →
        d "axes" = some .aaxes) ∧
      (∀ k v, (k, v) ∈ default_attrs3D →
        k ∉ [("style", AVal.astr "r-"), ("zorder", AVal.aobj 0)].map Prod.fst →
        d k = some v)) :=
  init_sets_attributes "roll" .aaxes [("style", .astr "r-"), ("zorder", .aobj 0)]
    (by decide) (by decide)

/-- C7: on any layer dict that has a `default_attrs` attribute, `clear()`
raises `TypeError` (the update is called with `self.default_attrs`
already `None`), restores no default value, and leaves every previously
present attribute equal to `None`. -/
theorem clear_raises_type_error (d : StrDict) (k : String)
    (hd : (d "default_attrs").isSome) :
    (Layer2D.clear d).2 = some .typeError ∧
    (Layer2D.clear d).1 k = (d k).map (fun _ => AVal.anone) := by
  obtain ⟨v, hv⟩ := Option.isSome_iff_exists.mp hd
  constructor <;> simp [Layer2D.clear, hv]

/-- Witness for C7: clearing a freshly specified dict holding only
`default_attrs` and `visible` raises `TypeError` and leaves `visible`
as `None`. -/
theorem clear_raises_type_error_witness :
    ((setattr (setattr (fun _ => none) "default_attrs" (.adict default_attrs2D))
        "visible" (.abool true)) "default_attrs").isSome = true ∧
    (Layer2D.clear (setattr (setattr (fun _ => none) "default_attrs"
        (.adict default_attrs2D)) "visible" (.abool true))).2
      = some .typeError ∧
    (Layer2D.clear (setattr (setattr (fun _ => none) "default_attrs"
        (.adict default_attrs2D)) "visible" (.abool true))).1 "visible"
      = ((setattr (setattr (fun _ => none) "default_attrs"
        (.adict default_attrs2D)) "visible" (.abool true)) "visible").map
          (fun _ => AVal.anone) := by
  refine ⟨rfl, ?_⟩
  exact clear_raises_type_error _ "visible" rfl

/-- C9: on a layer with no data added (`x_data` or `y_data` empty),
`bound` prints the diagnostic and returns with the layer unchanged — in
particular `patches` gains no element; and for any shape other than
`Circle` and `Rectangle`, `bound` never appends a patch. -/
theorem bound_no_data_unchanged (L : DataLayer) (shape : Shape)
    (h : L.x_data = [] ∨ L.y_data = []) :
    L.bound shape = Except.ok (L, true) ∧
    (∀ M : DataLayer, ∀ r, M.bound Shape.other = Except.ok r →
      r.1.patches = M.patches) := by
  constructor
  · rcases h with h | h
    · simp [DataLayer.bound, h]
    · rcases hx : L.x_data with _ | ⟨xs0, xrest⟩ <;>
        simp [DataLayer.bound, hx, h]
  · intro M r hr
    rw [DataLayer.bound.eq_def] at hr
    split at hr
    · split at hr
      · split at hr
        · cases hr
        · injection hr with hr
          rw [← hr]
          simp [patch_for]
      · injection hr with hr
        rw [← hr]
    · injection hr with hr
      rw [← hr]

/-- Witness for C9: a layer with no data and a patch already present is
returned unchanged, and a successful `bound` with a non-Circle,
non-Rectangle shape appends nothing. -/
theorem bound_no_data_unchanged_witness :
    ((DataLayer.mk [] [[1]] [Patch.rect (0, 0) 1 1 false]).x_data = [] ∨
      (DataLayer.mk [] [[1]] [Patch.rect (0, 0) 1 1 false]).y_data = []) ∧
    (DataLayer.mk [] [[1]] [Patch.rect (0, 0) 1 1 false]).bound Shape.circle
      = Except.ok (DataLayer.mk [] [[1]] [Patch.rect (0, 0) 1 1 false], true) ∧
    (∀ M : DataLayer, ∀ r, M.bound Shape.other = Except.ok r →
      r.1.patches = M.patches) := by
  refine ⟨Or.inl rfl, ?_⟩
  exact bound_no_data_unchanged _ Shape.circle (Or.inl rfl)

/-- One alpha-0.2 step never changes any layer's attributes (it writes
only the artist alpha store). -/
theorem over_step_secs (reg : String → Option Nat) (sec : Nat)
    (acc : DemoState) (t : String) :
    (over_step reg sec acc t).secs = acc.secs := by
  rcases hrt : reg t with _ | j
  · simp [over_step, hrt]
  · by_cases hj : j ≠ sec <;> simp [over_step, hrt, hj, sec_alpha_op]

/-- The alpha-0.2 loop never changes any layer's attributes. -/
theorem fold_over_secs (reg : String → Option Nat) (sec : Nat) :
    ∀ (ts : List String) (acc : DemoState),
      (ts.foldl (over_step reg sec) acc).secs = acc.secs
  | [], _ => rfl
  | t :: ts, acc => by
      rw [List.foldl_cons]
      rw [fold_over_secs reg sec ts (over_step reg sec acc t)]
      exact over_step_secs reg sec acc t

/-- The alpha-0.2 loop leaves alone every artist that belongs to no
other resolvable titled layer. -/
theorem fold_over_alphas_frame (reg : String → Option Nat) (sec : Nat) :
    ∀ (ts : List String) (acc : DemoState) (i : Nat),
      (∀ t j, t ∈ ts → reg t = some j → j ≠ sec →
        i ∉ leaf_artists_list ((acc.secs j).vals)) →
      (ts.foldl (over_step reg sec) acc).alphas i = acc.alphas i
  | [], _, _, _ => rfl
  | t :: ts, acc, i, h => by
      rw [List.foldl_cons]
      have hrest : ∀ t2 j, t2 ∈ ts → reg t2 = some j → j ≠ sec →
          i ∉ leaf_artists_list (((over_step reg sec acc t).secs j).vals) := by
        intro t2 j ht2 hr hj
        rw [over_step_secs]
        exact h t2 j (List.mem_cons_of_mem t ht2) hr hj
      rw [fold_over_alphas_frame reg sec ts _ i hrest]
      rcases hrt : reg t with _ | j
      · simp [over_step, hrt]
      · by_cases hj : j ≠ sec
        · have hmem : i ∉ leaf_artists_list ((acc.secs j).vals) :=
            h t j (List.mem_cons_self t ts) hrt hj
          simp only [over_step, hrt, if_pos hj, sec_alpha_op]
          exact loop_list_not_mem _ _ _ i hmem
        · simp [over_step, hrt, hj]

/-- The alpha-0.2 loop either leaves an artist's alpha alone or sets it
to exactly 0.2. -/
theorem fold_over_alpha_cases (reg : String → Option Nat) (sec : Nat) :
    ∀ (ts : List String) (acc : DemoState) (i : Nat),
      (ts.foldl (over_step reg sec) acc).alphas i = acc.alphas i ∨
      (ts.foldl (over_step reg sec) acc).alphas i = 1/5
  | [], _, _ => Or.inl rfl
  | t :: ts, acc, i => by
      rw [List.foldl_cons]
      rcases fold_over_alpha_cases reg sec ts (over_step reg sec acc t) i with h | h
      · rw [h]
        rcases hrt : reg t with _ | j
        · exact Or.inl (by simp [over_step, hrt])
        · by_cases hj : j ≠ sec
          · by_cases hmem : i ∈ leaf_artists_list ((acc.secs j).vals)
            · refine Or.inr ?_
              simp only [over_step, hrt, if_pos hj, sec_alpha_op]
              exact loop_list_const _ _ _ i hmem
            · refine Or.inl ?_
              simp only [over_step, hrt, if_pos hj, sec_alpha_op]
              exact loop_list_not_mem _ _ _ i hmem
          · exact Or.inl (by simp [over_step, hrt, hj])
      · exact Or.inr h

/-- Every artist of a non-hovered layer whose title appears among the
axes gets alpha 0.2 from the loop. -/
theorem fold_over_alpha_hit (reg : String → Option Nat) (sec : Nat) :
    ∀ (ts : List String) (acc : DemoState) (t : String) (j i : Nat),
      t ∈ ts → reg t = some j → j ≠ sec →
      i ∈ leaf_artists_list ((acc.secs j).vals) →
      (ts.foldl (over_step reg sec) acc).alphas i = 1/5
  | t0 :: ts, acc, t, j, i, hmem, hrt, hj, hi => by
      rw [List.foldl_cons]
      rcases List.mem_cons.mp hmem with rfl | hts
      · have hacc : (over_step reg sec acc t).alphas i = 1/5 := by
          simp only [over_step, hrt, if_pos hj, sec_alpha_op]
          exact loop_list_const _ _ _ i hi
        rcases fold_over_alpha_cases reg sec ts (over_step reg sec acc t) i with h | h
        · rw [h, hacc]
        · exact h
      · refine fold_over_alpha_hit reg sec ts _ t j i hts hrt hj ?_
        rw [over_step_secs]
        exact hi

/-- The unbound conditional never touches the hovered layer itself. -/
theorem over_unbound_secs_sec (st : DemoState) (sec : Nat) :
    (over_unbound_prev st sec).secs sec = st.secs sec := by
  unfold over_unbound_prev
  rcases st.hover_sec with _ | prev
  · rfl
  · by_cases hp : prev ≠ sec
    · have hsp : ¬(sec = prev) := fun he => hp he.symm
      simp [unbound_op, hp, hsp]
    · simp [hp]

/-- The unbound conditional never touches the artist alpha store. -/
theorem over_unbound_alphas (st : DemoState) (sec : Nat) :
    (over_unbound_prev st sec).alphas = st.alphas := by
  unfold over_unbound_prev
  rcases st.hover_sec with _ | prev
  · rfl
  · by_cases hp : prev ≠ sec <;> simp [unbound_op, hp]

/-- The unbound conditional changes no layer's traversal values (it only
drops a patch from the data attributes). -/
theorem over_unbound_vals (st : DemoState) (sec : Nat) (k : Nat) :
    ((over_unbound_prev st sec).secs k).vals = (st.secs k).vals := by
  unfold over_unbound_prev
  rcases st.hover_sec with _ | prev
  · rfl
  · by_cases hp : prev ≠ sec
    · by_cases hk : k = prev <;> simp [unbound_op, hp, hk]
    · simp [hp]

/-- When the hover moves from `prev` to a different layer, the unbound
conditional removes `prev`'s bound patch. -/
theorem over_unbound_prev_patches (st : DemoState) (sec prev : Nat)
    (hh : st.hover_sec = some prev) (hp : prev ≠ sec) :
    ((over_unbound_prev st sec).secs prev).data.patches
      = ((st.secs prev).data.patches).dropLast := by
  unfold over_unbound_prev
  rw [hh]
  simp [hp, unbound_op]

/-- A run of `bound` with the default Rectangle shape that returns
without printing the no-data diagnostic appends exactly one bound
patch. -/
theorem bound_rect_appends (L : DataLayer) (d2 : DataLayer)
    (h : L.bound Shape.rectangle = Except.ok (d2, false)) :
    ∃ pr, d2.patches = L.patches ++ [pr] := by
  rw [DataLayer.bound.eq_def] at h
  split at h
  · split at h
    · split at h
      · exact Except.noConfusion h
      · injection h with h
        have h2 : _ = d2 := congrArg Prod.fst h
        rw [← h2]
        exact ⟨_, rfl⟩
    · injection h with h
      simp at h
  · injection h with h
    simp at h

/-- Reduction of `mouse_over` on a resolvable title when the hovered
layer's `bound` succeeds with a drawn patch. -/
theorem mouse_over_ok (reg : String → Option Nat) (st : DemoState)
    (title : String) (sec : Nat) (d2 : DataLayer)
    (hreg : reg title = some sec)
    (hb : (st.secs sec).data.bound Shape.rectangle = Except.ok (d2, false)) :
    mouse_over reg st (some title)
      = Except.ok { st.axes_titles.foldl (over_step reg sec)
          { sec_alpha_op (over_unbound_prev st sec) sec 1 with
            secs := fun k => if k = sec then
              { (sec_alpha_op (over_unbound_prev st sec) sec 1).secs sec
                with data := d2 }
            else (sec_alpha_op (over_unbound_prev st sec) sec 1).secs k }
          with hover_sec := some sec } := by
  have hbind : (some title).bind reg = some sec := hreg
  have hscr : ((sec_alpha_op (over_unbound_prev st sec) sec 1).secs sec).data.bound
      Shape.rectangle = Except.ok (d2, false) := by
    show ((over_unbound_prev st sec).secs sec).data.bound Shape.rectangle = _
    rw [over_unbound_secs_sec]
    exact hb
  have hbop : sec_bound_op (sec_alpha_op (over_unbound_prev st sec) sec 1) sec
      = Except.ok { sec_alpha_op (over_unbound_prev st sec) sec 1 with
          secs := fun k => if k = sec then
            { (sec_alpha_op (over_unbound_prev st sec) sec 1).secs sec
              with data := d2 }
          else (sec_alpha_op (over_unbound_prev st sec) sec 1).secs k } := by
    rw [sec_bound_op.eq_def, hscr]
  simp only [mouse_over, hbind, hbop]

/-- C6: when a `motion_notify_event` happens over an axes whose title
resolves to a layer `sec` whose `bound()` draws (the layer has data),
`mouse_over` returns normally with: `sec` recorded in `hover_sec`, alpha
1 on each of `sec`'s artists (those not shared with another titled
layer), `sec`'s bound patch appended, the previously hovered different
layer's bound removed, and alpha 0.2 on every artist of every other
resolvable titled layer; a `button_press_event` over such an axes makes
`mouse_click` showcase `sec` when it differs from the last clicked layer
and record it in `click_sec`. -/
theorem event_system_highlight_and_click (reg : String → Option Nat)
    (st : DemoState) (title : String) (sec : Nat) (d2 : DataLayer)
    (hreg : reg title = some sec)
    (hb : (st.secs sec).data.bound Shape.rectangle = Except.ok (d2, false)) :
    (∃ stf, mouse_over reg st (some title) = Except.ok stf ∧
      stf.hover_sec = some sec ∧
      (∀ i, i ∈ leaf_artists_list ((st.secs sec).vals) →
        (∀ t j, t ∈ st.axes_titles → reg t = some j → j ≠ sec →
          i ∉ leaf_artists_list ((st.secs j).vals)) →
        stf.alphas i = 1) ∧
      (∃ pr, (stf.secs sec).data.patches
        = (st.secs sec).data.patches ++ [pr]) ∧
      (∀ prev, st.hover_sec = some prev → prev ≠ sec →
        (stf.secs prev).data.patches
          = ((st.secs prev).data.patches).dropLast) ∧
      (∀ t j i, t ∈ st.axes_titles → reg t = some j → j ≠ sec →
        i ∈ leaf_artists_list ((st.secs j).vals) →
        stf.alphas i = 1/5)) ∧
    ((mouse_click reg st (some title)).click_sec = some sec) ∧
    (∀ prev, st.click_sec = some prev → prev ≠ sec →
      (mouse_click reg st (some title)).showcase_log
        = st.showcase_log ++ [sec]) := by
  obtain ⟨pr, hpr⟩ := bound_rect_appends _ d2 hb
  have hmo := mouse_over_ok reg st title sec d2 hreg hb
  set B := { sec_alpha_op (over_unbound_prev st sec) sec 1 with
      secs := fun k => if k = sec then
        { (sec_alpha_op (over_unbound_prev st sec) sec 1).secs sec
          with data := d2 }
      else (sec_alpha_op (over_unbound_prev st sec) sec 1).secs k } with hBdef
  have hBsecs : ∀ k, B.secs k = if k = sec then
      { (sec_alpha_op (over_unbound_prev st sec) sec 1).secs sec
        with data := d2 }
      else (sec_alpha_op (over_unbound_prev st sec) sec 1).secs k := by
    intro k
    rw [hBdef]
  have hBvals : ∀ k, (B.secs k).vals = (st.secs k).vals := by
    intro k
    rw [hBsecs k]
    by_cases hk : k = sec
    · rw [if_pos hk, hk]
      show ((over_unbound_prev st sec).secs sec).vals = _
      rw [over_unbound_secs_sec]
    · rw [if_neg hk]
      exact over_unbound_vals st sec k
  have hBalphas : B.alphas = set_prop_alpha (st.secs sec).vals st.alphas 1 := by
    rw [hBdef]
    show set_prop_alpha ((over_unbound_prev st sec).secs sec).vals
      (over_unbound_prev st sec).alphas 1 = _
    rw [over_unbound_secs_sec, over_unbound_alphas]
  refine ⟨⟨_, hmo, rfl, ?_, ?_, ?_, ?_⟩, ?_, ?_⟩
  · intro i hi hdisj
    show (st.axes_titles.foldl (over_step reg sec) B).alphas i = 1
    have hd : ∀ t j, t ∈ st.axes_titles → reg t = some j → j ≠ sec →
        i ∉ leaf_artists_list ((B.secs j).vals) := by
      intro t j ht hr hj
      rw [hBvals j]
      exact hdisj t j ht hr hj
    rw [fold_over_alphas_frame reg sec st.axes_titles B i hd, hBalphas]
    exact loop_list_const _ _ _ i hi
  · refine ⟨pr, ?_⟩
    show ((st.axes_titles.foldl (over_step reg sec) B).secs sec).data.patches = _
    rw [fold_over_secs reg sec st.axes_titles B, hBsecs sec, if_pos rfl]
    exact hpr
  · intro prev hprev hne
    show ((st.axes_titles.foldl (over_step reg sec) B).secs prev).data.patches = _
    rw [fold_over_secs reg sec st.axes_titles B, hBsecs prev, if_neg hne]
    exact over_unbound_prev_patches st sec prev hprev hne
  · intro t j i ht hr hj hi
    show (st.axes_titles.foldl (over_step reg sec) B).alphas i = 1/5
    refine fold_over_alpha_hit reg sec st.axes_titles B t j i ht hr hj ?_
    rw [hBvals j]
    exact hi
  · simp [mouse_click, hreg]
  · intro prev hprev hne
    simp [mouse_click, hreg, hprev, hne]

/-- Witness for C6: two titled layers with one artist each; hovering and
clicking "section 0" while layer 1 was hovered (bound drawn) and last
clicked. -/
theorem event_system_highlight_and_click_witness :
    (∃ stf, mouse_over demo_reg demo_st (some "section 0") = Except.ok stf ∧
      stf.hover_sec = some 0 ∧
      (∀ i, i ∈ leaf_artists_list ((demo_st.secs 0).vals) →
        (∀ t j, t ∈ demo_st.axes_titles → demo_reg t = some j → j ≠ 0 →
          i ∉ leaf_artists_list ((demo_st.secs j).vals)) →
        stf.alphas i = 1) ∧
      (∃ pr, (stf.secs 0).data.patches
        = (demo_st.secs 0).data.patches ++ [pr]) ∧
      (∀ prev, demo_st.hover_sec = some prev → prev ≠ 0 →
        (stf.secs prev).data.patches
          = ((demo_st.secs prev).data.patches).dropLast) ∧
      (∀ t j i, t ∈ demo_st.axes_titles → demo_reg t = some j → j ≠ 0 →
        i ∈ leaf_artists_list ((demo_st.secs j).vals) →
        stf.alphas i = 1/5)) ∧
    ((mouse_click demo_reg demo_st (some "section 0")).click_sec = some 0) ∧
    (∀ prev, demo_st.click_sec = some prev → prev ≠ 0 →
      (mouse_click demo_reg demo_st (some "section 0")).showcase_log
        = demo_st.showcase_log ++ [0]) :=
  event_system_highlight_and_click demo_reg demo_st "section 0" 0 demo_d2
    rfl (by norm_num [demo_st, demo_sec0, demo_data0, demo_d2, DataLayer.bound,
      aminQ, amaxQ, extrema_fold, patch_for, min_def, max_def])

end Retina
